import Mathlib

/-!
Shallow embedding of `src/MiniGit.py` (class `Sbac`, a minimal local
version-control tool) and proofs about its specified properties.

Modelling conventions, fixed throughout this file:

* File contents are byte lists (`Content := List Nat`, each entry `< 256`).
* Filesystem paths are component lists. `os.path.join(a, b)` on a relative
  `b` is list append; `os.path.relpath(p, base)` strips the `base` components.
* The working filesystem is an association list from absolute paths to
  contents plus a list of existing directories, and a `log` recording every
  physical file write in order (each `open(..., "wb")`/`write` performed by
  the program appends one entry).
* The sqlite database `.sbac/sbac.db` is modelled relationally as the five
  tables the schema creates; its on-disk file is not part of the modelled
  filesystem (the code never touches it except through sqlite).
* Ambient reads (`datetime.now()`, `os.path.getmtime`) are passed as explicit
  arguments to the operations that perform them, one argument per call site.
* A Python function that prints an error message and returns `False` is
  modelled as returning the corresponding `SbacError`; an uncaught Python
  exception is modelled as a `PyError` outcome (`SbacResult.crash`).
  An uncommitted sqlite transaction is rolled back when the connection is
  dropped, so a crash leaves the database part of the state unchanged.
-/

set_option maxRecDepth 100000

namespace MiniGit

/-! ## SHA-1 over byte lists

`Sbac._calculate_hash` feeds the file's bytes to `hashlib.sha1` in 64 KiB
chunks; streaming chunks of a byte sequence yields the digest of the whole
sequence, so the model hashes the full byte list.  The implementation below
is plain SHA-1 (FIPS 180) on 32-bit words represented as `Nat < 2^32`. -/

/-- Modulus for 32-bit words. -/
def M32 : Nat := 4294967296

/-- Combine the low `k` bits of two naturals with a bit-level operation. -/
def bitZip (f : Nat → Nat → Nat) : Nat → Nat → Nat → Nat
  | 0, _, _ => 0
  | k + 1, a, b => f (a % 2) (b % 2) + 2 * bitZip f k (a / 2) (b / 2)

/-- 32-bit bitwise exclusive or. -/
def xor32 (a b : Nat) : Nat := bitZip (fun x y => (x + y) % 2) 32 a b

/-- 32-bit bitwise and. -/
def and32 (a b : Nat) : Nat := bitZip (fun x y => x * y) 32 a b

/-- 32-bit bitwise or. -/
def or32 (a b : Nat) : Nat := bitZip (fun x y => x + y - x * y) 32 a b

/-- 32-bit bitwise complement. -/
def not32 (a : Nat) : Nat := M32 - 1 - a % M32

/-- Rotate a 32-bit word left by `n` bits. -/
def rotl32 (n a : Nat) : Nat := (a % M32) * 2 ^ n % M32 + a % M32 / 2 ^ (32 - n)

/-- Big-endian byte expansion of a natural, `k` bytes wide. -/
def beBytes : Nat → Nat → List Nat
  | 0, _ => []
  | k + 1, v => beBytes k (v / 256) ++ [v % 256]

/-- One 32-bit word from four big-endian bytes. -/
def wordOfBytes : List Nat → Nat
  | b0 :: b1 :: b2 :: b3 :: _ => ((b0 * 256 + b1) * 256 + b2) * 256 + b3
  | _ => 0

/-- Split a byte list into big-endian 32-bit words. -/
def toWords : Nat → List Nat → List Nat
  | 0, _ => []
  | _, [] => []
  | fuel + 1, l => wordOfBytes (l.take 4) :: toWords fuel (l.drop 4)

/-- SHA-1 message padding: a 0x80 byte, zeros to 56 mod 64, then the
bit length as eight big-endian bytes. -/
def sha1Pad (msg : List Nat) : List Nat :=
  let l := msg.length
  let z := (119 - l % 64) % 64
  msg ++ (128 :: List.replicate z 0) ++ beBytes 8 (8 * l)

/-- Extend 16 schedule words to 80 by the SHA-1 recurrence. -/
def sha1Extend : Nat → List Nat → List Nat
  | 0, ws => ws
  | k + 1, ws =>
    let n := ws.length
    let w := rotl32 1 (xor32 (xor32 (ws.getD (n - 3) 0) (ws.getD (n - 8) 0))
      (xor32 (ws.getD (n - 14) 0) (ws.getD (n - 16) 0)))
    sha1Extend k (ws ++ [w])

/-- SHA-1 round function and constant for round `i`. -/
def sha1F (i b c d : Nat) : Nat × Nat :=
  if i < 20 then (or32 (and32 b c) (and32 (not32 b) d), 1518500249)
  else if i < 40 then (xor32 b (xor32 c d), 1859775393)
  else if i < 60 then
    (or32 (or32 (and32 b c) (and32 b d)) (and32 c d), 2400959708)
  else (xor32 b (xor32 c d), 3395469782)

/-- One SHA-1 compression round. -/
def sha1Round (st : Nat × Nat × Nat × Nat × Nat) (iw : Nat × Nat) :
    Nat × Nat × Nat × Nat × Nat :=
  let (a, b, c, d, e) := st
  let (f, k) := sha1F iw.1 b c d
  ((rotl32 5 a + f + e + k + iw.2) % M32, a, rotl32 30 b, c, d)

/-- Process one 64-byte block, updating the five-word chaining state. -/
def sha1Block (h : Nat × Nat × Nat × Nat × Nat) (block : List Nat) :
    Nat × Nat × Nat × Nat × Nat :=
  let ws := sha1Extend 64 (toWords 16 block)
  let (a, b, c, d, e) := (List.range 80).zip ws |>.foldl sha1Round h
  let (h0, h1, h2, h3, h4) := h
  ((h0 + a) % M32, (h1 + b) % M32, (h2 + c) % M32, (h3 + d) % M32,
    (h4 + e) % M32)

/-- Split a list into 64-byte blocks (fuelled by the list length). -/
def blocks64 : Nat → List Nat → List (List Nat)
  | 0, _ => []
  | _, [] => []
  | fuel + 1, l => l.take 64 :: blocks64 fuel (l.drop 64)

/-- SHA-1 chaining result over a whole byte list. -/
def sha1Nat (msg : List Nat) : Nat × Nat × Nat × Nat × Nat :=
  let padded := sha1Pad msg
  (blocks64 padded.length padded).foldl sha1Block
    (1732584193, 4023233417, 2562383102, 271733878, 3285377520)

/-- Lower-case hexadecimal digit. -/
def hexDigitChar (n : Nat) : Char :=
  if n < 10 then Char.ofNat (48 + n) else Char.ofNat (87 + n)

/-- The low `k` nibbles of a natural as hex characters, most significant
first. -/
def hexNibbles : Nat → Nat → List Char
  | 0, _ => []
  | k + 1, v => hexNibbles k (v / 16) ++ [hexDigitChar (v % 16)]

/-- Forty-character lower-case hex digest, as `hashlib.sha1(...).hexdigest()`
returns it. -/
def sha1Hex (msg : List Nat) : String :=
  let (h0, h1, h2, h3, h4) := sha1Nat msg
  String.mk (hexNibbles 8 h0 ++ hexNibbles 8 h1 ++ hexNibbles 8 h2 ++
    hexNibbles 8 h3 ++ hexNibbles 8 h4)

/-- Sanity check of the SHA-1 model against the FIPS 180 test vector for
the message "abc". -/
theorem sha1Hex_abc :
    sha1Hex [97, 98, 99] = "a9993e364706816aba3e25717850c26c9cd0d89d" := by
  decide

/-! ## Bytes, paths and the filesystem -/

/-- File contents: a list of byte values. -/
abbrev Content := List Nat

/-- A repository-relative path, as its slash-separated components.
`os.path.join(base, rel)` appends the components; equal component lists
correspond to equal normalized path strings. -/
abbrev RelPath := List String

/-- An absolute path, as components from the filesystem root. -/
abbrev AbsPath := List String

/-- UTF-8 bytes of an ASCII string (`str.encode()`); every string the
program hashes — `str(datetime.now())` — is ASCII. -/
def strBytes (s : String) : List Nat := s.data.map Char.toNat

/-- Look up an association list by key (first match), as a filesystem read
of the file stored at a path. -/
def getAssoc : List (AbsPath × Content) → AbsPath → Option Content
  | [], _ => none
  | (q, d) :: rest, p => if q = p then some d else getAssoc rest p

/-- Overwrite the first entry at a key, or append a new one: the effect of
`open(path, "wb")` followed by a full write. -/
def setAssoc : List (AbsPath × Content) → AbsPath → Content →
    List (AbsPath × Content)
  | [], p, c => [(p, c)]
  | (q, d) :: rest, p, c =>
    if q = p then (p, c) :: rest else (q, d) :: setAssoc rest p c

/-- The filesystem outside the sqlite database: regular files with their
contents, the set of directories, and a log of every physical file write
the program has performed (newest last). -/
structure FS where
  files : List (AbsPath × Content)
  dirs : List AbsPath
  log : List AbsPath
deriving DecidableEq

/-- Write a file, recording the physical write in the log. -/
def fsWrite (fs : FS) (p : AbsPath) (c : Content) : FS :=
  { fs with files := setAssoc fs.files p c, log := fs.log ++ [p] }

/-- Create a directory if absent (`os.makedirs(..., exist_ok=True)`). -/
def fsMkdir (fs : FS) (p : AbsPath) : FS :=
  { fs with dirs := if fs.dirs.contains p then fs.dirs else fs.dirs ++ [p] }

/-! ## The database schema (`_init_db`) -/

/-- One row of the `files` table: path, last recorded content hash, source
mtime, staged flag. -/
structure FileRow where
  path : RelPath
  last_hash : String
  last_modified : Nat
  staged : Bool
deriving DecidableEq

/-- One row of the `commits` table. `timestamp` is the text
`str(datetime.now())`; sqlite orders it bytewise, which on these ASCII
strings agrees with Lean's `String` order. -/
structure CommitRow where
  id : String
  message : String
  timestamp : String
  parent_id : Option String
deriving DecidableEq

/-- One row of the `commit_files` table. -/
structure CommitFileRow where
  commit_id : String
  file_path : RelPath
  file_hash : String
deriving DecidableEq

/-- The five relations of `.sbac/sbac.db`. `config` and `baselines` are
key-value pairs; `baselines` is keyed by name. -/
structure DB where
  config : List (String × String)
  files : List FileRow
  commits : List CommitRow
  commit_files : List CommitFileRow
  baselines : List (String × String)
deriving DecidableEq

/-- A freshly created (empty) schema. -/
def DB.empty : DB := ⟨[], [], [], [], []⟩

/-- Full program state: the process working directory, the `Sbac` object's
fields (`repo_path`, `initialized`), the database contents, and the
filesystem. -/
structure RepoState where
  cwd : AbsPath
  repo_path : AbsPath
  initialized : Bool
  db : DB
  fs : FS
deriving DecidableEq

/-- The metadata directory `self.sbac_dir = os.path.join(repo_path, ".sbac")`. -/
def sbacDir (st : RepoState) : AbsPath := st.repo_path ++ [".sbac"]

/-- The `Sbac.__init__` constructor: `initialized` is whether the metadata
directory exists at construction time. -/
def mkSbac (cwd repo : AbsPath) (db : DB) (fs : FS) : RepoState :=
  { cwd := cwd, repo_path := repo,
    initialized := fs.dirs.contains (repo ++ [".sbac"]), db := db, fs := fs }

/-! ## Results and errors -/

/-- Conditions the program reports by printing a message and returning
`False`; the constructor names follow the messages printed at each site. -/
inductive SbacError where
  | notInitialized
  | alreadyInitialized
  | fileNotFound
  | untrackedFile
  | noCommits
deriving DecidableEq

/-- Uncaught Python exceptions the code can raise. `nameErrorDiff` is the
`NameError` raised at `difflib.unified_diff` (the module is never
imported); `integrityError` is sqlite's primary-key violation. -/
inductive PyError where
  | nameErrorDiff
  | integrityError
  | isADirectoryError
  | fileNotFoundError
  | fileExistsError
  | typeErrorNone
deriving DecidableEq

/-- Outcome of one `Sbac` method call. -/
inductive SbacResult where
  | ok
  | err : SbacError → SbacResult
  | crash : PyError → SbacResult
deriving DecidableEq

/-! ## Helper methods of `Sbac` -/

/-- `Sbac._calculate_hash`: the SHA-1 hex digest of the file's bytes
(streamed in chunks, which equals hashing the whole byte sequence). -/
def calculateHash (c : Content) : String := sha1Hex c

/-- The object-store location of a digest:
`.sbac/objects/<hash[:2]>/<hash[2:]>`. -/
def objectPath (st : RepoState) (object_hash : String) : AbsPath :=
  sbacDir st ++ ["objects", object_hash.take 2, object_hash.drop 2]

/-- `Sbac._store_object`: create the fan-out directory, then
unconditionally copy the source file's bytes to the object path (the code
performs the write even when the object already exists).  Returns the
updated state, plus the exception if the source file cannot be read. -/
def storeObject (st : RepoState) (object_hash : String) (file_path : AbsPath) :
    RepoState × Option PyError :=
  let object_dir := sbacDir st ++ ["objects", object_hash.take 2]
  let st1 := { st with fs := fsMkdir st.fs object_dir }
  match getAssoc st1.fs.files file_path with
  | none => (st1, some .fileNotFoundError)
  | some c =>
    ({ st1 with fs := fsWrite st1.fs (object_dir ++ [object_hash.drop 2]) c },
      none)

/-- `Sbac._get_object_content`: read the stored blob for a digest. -/
def getObjectContent (st : RepoState) (object_hash : String) : Option Content :=
  getAssoc st.fs.files (objectPath st object_hash)

/-- Strip a base directory from an absolute path
(`os.path.relpath(full, base)` for paths under `base`). -/
def relUnder : AbsPath → AbsPath → Option RelPath
  | [], f => some f
  | _ :: _, [] => none
  | b :: bs, f :: fs => if b = f then relUnder bs fs else none

/-- `Sbac._find_untracked_files`: walk the repository, pruning any
directory named `.sbac` at any depth, and return the relative paths of
files with no `files`-table row.  In the model: the files under
`repo_path` none of whose directory components is `.sbac` (a file cannot
coincide with the repository directory itself, hence `rel ≠ []`). -/
def findUntrackedFiles (st : RepoState) : List RelPath :=
  let tracked := st.db.files.map (·.path)
  st.fs.files.filterMap fun kv =>
    match relUnder st.repo_path kv.1 with
    | some rel =>
      if rel ≠ [] ∧ ".sbac" ∉ rel.dropLast ∧ rel ∉ tracked
      then some rel else none
    | none => none

/-- The head commit: `SELECT id FROM commits ORDER BY timestamp DESC
LIMIT 1`.  sqlite leaves the order of equal timestamps unspecified; the
model keeps the earlier row on ties. -/
def headCommit (cs : List CommitRow) : Option CommitRow :=
  cs.foldl
    (fun acc c =>
      match acc with
      | none => some c
      | some b => if b.timestamp < c.timestamp then some c else some b)
    none

/-- `INSERT OR REPLACE INTO files`: replace the row with this path, or
append one. -/
def upsertFile : List FileRow → FileRow → List FileRow
  | [], r => [r]
  | x :: rest, r =>
    if x.path = r.path then r :: rest else x :: upsertFile rest r

/-- `INSERT OR REPLACE INTO baselines`: replace the row with this name, or
append one. -/
def upsertBaseline : List (String × String) → String × String →
    List (String × String)
  | [], b => [b]
  | x :: rest, b =>
    if x.1 = b.1 then b :: rest else x :: upsertBaseline rest b

/-! ## The `Sbac` operations -/

namespace Sbac

/-- `Sbac.init`: reject when already initialized; otherwise create the
metadata directory (plain `os.makedirs`, which raises if the directory
already exists), the object directory and the schema, and record the
creation timestamp `datetime.now().isoformat()` (passed as `nowIso`). -/
def init (st : RepoState) (nowIso : String) : SbacResult × RepoState :=
  if st.initialized then (.err .alreadyInitialized, st)
  else if st.fs.dirs.contains (sbacDir st) then (.crash .fileExistsError, st)
  else
    let fs1 := fsMkdir (fsMkdir st.fs (sbacDir st)) (sbacDir st ++ ["objects"])
    let db1 := { st.db with config := st.db.config ++ [("created_at", nowIso)] }
    (.ok, { st with fs := fs1, db := db1, initialized := true })

/-- `Sbac.add`: require initialization; fail when the path does not exist
under the repository root; otherwise hash the content, store the blob,
and upsert the `files` row with `staged = 1`.  `mtime` is the ambient
`os.path.getmtime` reading. -/
def add (st : RepoState) (file_path : RelPath) (mtime : Nat) :
    SbacResult × RepoState :=
  if !st.initialized then (.err .notInitialized, st)
  else
    let abs_path := st.repo_path ++ file_path
    match getAssoc st.fs.files abs_path with
    | none =>
      if st.fs.dirs.contains abs_path then (.crash .isADirectoryError, st)
      else (.err .fileNotFound, st)
    | some content =>
      let file_hash := calculateHash content
      let stored := storeObject st file_hash abs_path
      match stored.2 with
      | some pe => (.crash pe, stored.1)
      | none =>
        let row : FileRow := ⟨file_path, file_hash, mtime, true⟩
        (.ok, { stored.1 with db := { stored.1.db with
          files := upsertFile stored.1.db.files row } })

/-- The three lists `Sbac.status` computes: staged rows, tracked rows whose
on-disk digest differs from `last_hash` (the query does not exclude staged
rows), and untracked files. -/
def statusLists (st : RepoState) : List RelPath × List RelPath × List RelPath :=
  let staged_files := (st.db.files.filter (·.staged)).map (·.path)
  let modified_files := (st.db.files.filter fun r =>
    match getAssoc st.fs.files (st.repo_path ++ r.path) with
    | some c => calculateHash c != r.last_hash
    | none => false).map (·.path)
  (staged_files, modified_files, findUntrackedFiles st)

/-- `Sbac.status`: require initialization, then print the three lists.
Hashing a tracked path that exists only as a directory raises. -/
def status (st : RepoState) : SbacResult × RepoState :=
  if !st.initialized then (.err .notInitialized, st)
  else if st.db.files.any (fun r =>
      getAssoc st.fs.files (st.repo_path ++ r.path) = none ∧
      st.fs.dirs.contains (st.repo_path ++ r.path)) then
    (.crash .isADirectoryError, st)
  else (.ok, st)

/-- The all-files branch of `Sbac.diff`: for each tracked row in table
order whose file exists on disk with a digest differing from `last_hash`,
the code reads the stored blob and the file and then reaches
`difflib.unified_diff`, which raises `NameError` (the import is missing);
rows whose file is gone from disk are skipped. -/
def diffAll (st : RepoState) : List FileRow → SbacResult × RepoState
  | [] => (.ok, st)
  | row :: rest =>
    let abs_path := st.repo_path ++ row.path
    match getAssoc st.fs.files abs_path with
    | none =>
      if st.fs.dirs.contains abs_path then (.crash .isADirectoryError, st)
      else diffAll st rest
    | some c =>
      if calculateHash c != row.last_hash then
        match getObjectContent st row.last_hash with
        | none => (.crash .fileNotFoundError, st)
        | some _ => (.crash .nameErrorDiff, st)
      else diffAll st rest

/-- `Sbac.diff`: require initialization.  With an explicit path: fail with
the untracked-file report when the path has no `files` row; otherwise read
the stored blob and the on-disk file, then reach `difflib.unified_diff`,
which raises `NameError` because `difflib` is never imported. -/
def diff (st : RepoState) (file_path : Option RelPath) :
    SbacResult × RepoState :=
  if !st.initialized then (.err .notInitialized, st)
  else
    match file_path with
    | some fp =>
      match st.db.files.find? (fun r => r.path == fp) with
      | none => (.err .untrackedFile, st)
      | some row =>
        match getObjectContent st row.last_hash with
        | none => (.crash .fileNotFoundError, st)
        | some _ =>
          match getAssoc st.fs.files (st.repo_path ++ fp) with
          | none =>
            if st.fs.dirs.contains (st.repo_path ++ fp) then
              (.crash .isADirectoryError, st)
            else (.crash .fileNotFoundError, st)
          | some _ => (.crash .nameErrorDiff, st)
    | none => diffAll st st.db.files

/-- `Sbac.commit`: require initialization; parent is the current head
(maximal timestamp); the new id is the SHA-1 hex digest of the first
`str(datetime.now())` reading (`nowA`); the stored timestamp is the second
reading (`nowB`).  A duplicate id violates the `commits` primary key and
raises, rolling the transaction back.  Otherwise the commit row is
appended, one `commit_files` row is recorded per staged `files` row, and
`staged` is cleared on exactly those paths. -/
def commit (st : RepoState) (message nowA nowB : String) :
    SbacResult × RepoState :=
  if !st.initialized then (.err .notInitialized, st)
  else
    let parent_id := (headCommit st.db.commits).map (·.id)
    let commit_id := sha1Hex (strBytes nowA)
    if st.db.commits.any (fun c => c.id == commit_id) then
      (.crash .integrityError, st)
    else
      let stagedRows := st.db.files.filter (·.staged)
      (.ok, { st with db := { st.db with
        commits := st.db.commits ++ [⟨commit_id, message, nowB, parent_id⟩],
        commit_files := st.db.commit_files ++
          stagedRows.map (fun r => ⟨commit_id, r.path, r.last_hash⟩),
        files := st.db.files.map (fun r =>
          if stagedRows.any (fun s => s.path == r.path) then
            { r with staged := false }
          else r) } })

/-- `Sbac.history`: require initialization, then print the commits newest
first (output only; no state change). -/
def history (st : RepoState) : SbacResult × RepoState :=
  if !st.initialized then (.err .notInitialized, st) else (.ok, st)

/-- `Sbac.baseline`: require initialization; fail when no commit exists;
otherwise point `name` at the current head (create-or-replace). -/
def baseline (st : RepoState) (name : String) : SbacResult × RepoState :=
  if !st.initialized then (.err .notInitialized, st)
  else
    match headCommit st.db.commits with
    | none => (.err .noCommits, st)
    | some c =>
      (.ok, { st with db := { st.db with
        baselines := upsertBaseline st.db.baselines (name, c.id) } })

/-- `Sbac.list_baselines`: require initialization, then print each
baseline with its commit's message, dereferencing the commit
unconditionally — a baseline whose commit id is absent from `commits`
makes `cursor.fetchone()[0]` raise (`None` is not subscriptable). -/
def list_baselines (st : RepoState) : SbacResult × RepoState :=
  if !st.initialized then (.err .notInitialized, st)
  else if st.db.baselines.any (fun b =>
      st.db.commits.find? (fun c => c.id == b.2) = none) then
    (.crash .typeErrorNone, st)
  else (.ok, st)

/-- The restore loop of `Sbac.checkout`: for each `commit_files` row, read
the stored blob and write it to `open(path, "wb")` — a bare relative path,
which the operating system resolves against the process working directory,
not against `repo_path`. -/
def restoreFiles (st : RepoState) : List CommitFileRow → SbacResult × RepoState
  | [] => (.ok, st)
  | r :: rest =>
    match getAssoc st.fs.files (objectPath st r.file_hash) with
    | none => (.crash .fileNotFoundError, st)
    | some c =>
      restoreFiles { st with fs := fsWrite st.fs (st.cwd ++ r.file_path) c } rest

/-- `Sbac.checkout`: require initialization; resolve `version` as a
baseline name, falling back to treating it literally as a commit id; then
restore every `commit_files` row of that id.  No existence check is made
on the commit: an id with no rows restores nothing and still succeeds. -/
def checkout (st : RepoState) (version : String) : SbacResult × RepoState :=
  if !st.initialized then (.err .notInitialized, st)
  else
    let commit_id :=
      match st.db.baselines.find? (fun b => b.1 == version) with
      | some b => b.2
      | none => version
    restoreFiles st (st.db.commit_files.filter (fun r => r.commit_id == commit_id))

end Sbac

/-- The `(path, hash)` entries recorded for a commit id:
`SELECT file_path, file_hash FROM commit_files WHERE commit_id = ?`. -/
def entriesOf (db : DB) (id : String) : List (RelPath × String) :=
  (db.commit_files.filter (fun e => e.commit_id == id)).map
    (fun e => (e.file_path, e.file_hash))

/-- The referential invariant of the baselines table: every baseline's
commit id names a row of the commits table. -/
def baselineInv (db : DB) : Prop :=
  ∀ b ∈ db.baselines, ∃ c ∈ db.commits, c.id = b.2

instance baselineInvDecidable (db : DB) : Decidable (baselineInv db) :=
  decidable_of_iff
    (db.baselines.all (fun b => db.commits.any (fun c => c.id == b.2)) = true)
    (by simp [baselineInv, List.all_eq_true, List.any_eq_true])

/-! ## Concrete repository states used to settle the claims -/

/-- The bytes of "hello". -/
def helloBytes : Content := [104, 101, 108, 108, 111]

/-- The bytes of "bye". -/
def byeBytes : Content := [98, 121, 101]

/-- A state for claim C1: the repository lives at `/home/repo` while the
process working directory is `/home`; one commit `cid1` records `a.txt`
at the digest of "hello", and the blob is present in the object store.
The working tree holds no `a.txt` anywhere. -/
def c1St : RepoState :=
  { cwd := ["home"], repo_path := ["home", "repo"], initialized := true,
    db := { DB.empty with
      commits := [⟨"cid1", "first", "t0", none⟩],
      commit_files := [⟨"cid1", ["a.txt"], calculateHash helloBytes⟩] },
    fs := { files := [(["home", "repo", ".sbac", "objects",
              (calculateHash helloBytes).take 2,
              (calculateHash helloBytes).drop 2], helloBytes)],
            dirs := [["home", "repo", ".sbac"],
              ["home", "repo", ".sbac", "objects"]],
            log := [] } }

/-- An initialized repository at `/w` whose working tree holds one file
`a.txt` = "hello"; database empty.  Base state for claim C2. -/
def c2St0 : RepoState :=
  { cwd := ["w"], repo_path := ["w"], initialized := true, db := DB.empty,
    fs := { files := [(["w", "a.txt"], helloBytes)],
            dirs := [["w", ".sbac"], ["w", ".sbac", "objects"]],
            log := [] } }

/-- C2 state after one `add` of `a.txt`. -/
def c2St1 : RepoState := (Sbac.add c2St0 ["a.txt"] 1).2

/-- C2 state after a second, identical `add` of `a.txt`. -/
def c2St2 : RepoState := (Sbac.add c2St1 ["a.txt"] 1).2

/-- The object-store path of the "hello" blob in the C2 repository. -/
def c2Obj : AbsPath := objectPath c2St0 (calculateHash helloBytes)

/-- An initialized, completely empty repository at `/w` (no baselines, no
commits, no files).  Used for claim C3. -/
def c3St : RepoState :=
  { cwd := ["w"], repo_path := ["w"], initialized := true, db := DB.empty,
    fs := { files := [],
            dirs := [["w", ".sbac"], ["w", ".sbac", "objects"]],
            log := [] } }

/-- An initialized repository with an empty database: nothing staged, no
commits.  Used for claim C4. -/
def c4St : RepoState :=
  { cwd := ["w"], repo_path := ["w"], initialized := true, db := DB.empty,
    fs := { files := [],
            dirs := [["w", ".sbac"], ["w", ".sbac", "objects"]],
            log := [] } }

/-- Base state for claim C6: an initialized repository whose working tree
holds `a.txt` = "hello" and an untracked `u.txt`. -/
def c6St0 : RepoState :=
  { cwd := ["w"], repo_path := ["w"], initialized := true, db := DB.empty,
    fs := { files := [(["w", "a.txt"], helloBytes), (["w", "u.txt"], [117])],
            dirs := [["w", ".sbac"], ["w", ".sbac", "objects"]],
            log := [] } }

/-- C6 state after `add a.txt` followed by an external edit of `a.txt` to
"bye" (the user overwrites the file outside of `Sbac`, so only `fs.files`
changes). -/
def c6St2 : RepoState :=
  let st1 := (Sbac.add c6St0 ["a.txt"] 1).2
  { st1 with fs := { st1.fs with
      files := setAssoc st1.fs.files ["w", "a.txt"] byeBytes } }

/-- A state for claim C8: `a.txt` is tracked at the digest of "hello"
with the blob stored, and the on-disk content has been edited, so `diff`
reaches the `difflib.unified_diff` call. -/
def c8St : RepoState :=
  { cwd := ["w"], repo_path := ["w"], initialized := true,
    db := { DB.empty with
      files := [⟨["a.txt"], calculateHash helloBytes, 1, false⟩] },
    fs := { files := [(["w", "a.txt"], byeBytes),
              (["w", ".sbac", "objects", (calculateHash helloBytes).take 2,
                (calculateHash helloBytes).drop 2], helloBytes)],
            dirs := [["w", ".sbac"], ["w", ".sbac", "objects"]],
            log := [] } }

/-! ## Helper lemmas -/

/-- Overwriting a stored file with the very bytes it already holds leaves
the file map unchanged. -/
theorem setAssoc_self (l : List (AbsPath × Content)) (p : AbsPath)
    (c : Content) (h : getAssoc l p = some c) : setAssoc l p c = l := by
  induction l with
  | nil => simp [getAssoc] at h
  | cons x rest ih =>
    obtain ⟨q, d⟩ := x
    by_cases hq : q = p
    · subst hq
      have h' : d = c := by simpa [getAssoc] using h
      simp [setAssoc, h']
    · simp only [getAssoc, if_neg hq] at h
      simp [setAssoc, hq, ih h]

/-- The head commit returned by the max-timestamp query is a row of the
table. -/
theorem headCommit_mem (cs : List CommitRow) (c : CommitRow)
    (h : headCommit cs = some c) : c ∈ cs := by
  suffices haux : ∀ (acc : Option CommitRow),
      cs.foldl
        (fun acc c =>
          match acc with
          | none => some c
          | some b => if b.timestamp < c.timestamp then some c else some b)
        acc = some c → acc = some c ∨ c ∈ cs by
    rcases haux none h with hx | hx
    · exact absurd hx (by simp)
    · exact hx
  clear h
  induction cs with
  | nil => exact fun acc h => .inl h
  | cons a t ih =>
    intro acc h
    rcases ih _ h with hx | hx
    · match acc with
      | none =>
        exact .inr (by simp only [Option.some.injEq] at hx; simp [hx])
      | some b =>
        simp only at hx
        split at hx
        · exact .inr (by simp at hx; simp [hx])
        · exact .inl hx
    · exact .inr (List.mem_cons_of_mem a hx)

/-- Membership after a create-or-replace on the baselines table. -/
theorem mem_upsertBaseline (l : List (String × String)) (x b : String × String)
    (h : b ∈ upsertBaseline l x) : b = x ∨ b ∈ l := by
  induction l with
  | nil => simpa [upsertBaseline] using h
  | cons a t ih =>
    simp only [upsertBaseline] at h
    split at h
    · rcases List.mem_cons.mp h with hx | hx
      · exact .inl hx
      · exact .inr (List.mem_cons_of_mem a hx)
    · rcases List.mem_cons.mp h with hx | hx
      · exact .inr (hx ▸ List.mem_cons_self a t)
      · rcases ih hx with hy | hy
        · exact .inl hy
        · exact .inr (List.mem_cons_of_mem a hy)

/-- `_store_object` never touches the database. -/
theorem storeObject_db (st : RepoState) (h : String) (p : AbsPath) :
    (storeObject st h p).1.db = st.db := by
  unfold storeObject
  dsimp only
  split <;> rfl

/-- The checkout restore loop never touches the database. -/
theorem restoreFiles_db (l : List CommitFileRow) (st : RepoState) :
    (Sbac.restoreFiles st l).2.db = st.db := by
  induction l generalizing st with
  | nil => rfl
  | cons r rest ih =>
    unfold Sbac.restoreFiles
    split
    · rfl
    · exact ih _

/-- `baselineInv` transfers to a database with the same baselines and at
least the same commits. -/
theorem baselineInv_extend (db db' : DB) (hb : db'.baselines = db.baselines)
    (hc : ∀ x ∈ db.commits, x ∈ db'.commits) (h : baselineInv db) :
    baselineInv db' := by
  intro b hbmem
  rw [hb] at hbmem
  obtain ⟨c, hc1, hc2⟩ := h b hbmem
  exact ⟨c, hc c hc1, hc2⟩

/-! ## Claim theorems -/

/-- Claim C1: checkout is claimed to copy each of the resolved commit's
blobs to its recorded path relative to the repository root.  The code
instead opens the recorded path as a bare relative path, which resolves
against the process working directory: with the repository at
`/home/repo` and the process in `/home`, checking out commit `cid1`
(entry `a.txt` at the digest of "hello") reports success, writes the blob
to `/home/a.txt`, and leaves `/home/repo/a.txt` absent — the restored
copy (at the wrong location) does recompute to the recorded
`file_hash`. -/
theorem checkout_restores_to_cwd_not_repo_root :
    (Sbac.checkout c1St "cid1").1 = .ok ∧
    entriesOf c1St.db "cid1" = [(["a.txt"], calculateHash helloBytes)] ∧
    getAssoc (Sbac.checkout c1St "cid1").2.fs.files
      (c1St.cwd ++ ["a.txt"]) = some helloBytes ∧
    getAssoc (Sbac.checkout c1St "cid1").2.fs.files
      (c1St.repo_path ++ ["a.txt"]) = none := by
  decide

/-- Claim C2 counterexample: re-adding content whose blob already exists
is claimed to be a no-op write, but `_store_object` writes
unconditionally: after `add a.txt`, the blob is present in the object
store, yet a second identical `add` performs a second physical write to
the same object path (the write log holds two entries for it). -/
theorem readd_performs_second_physical_write :
    (Sbac.add c2St1 ["a.txt"] 1).1 = .ok ∧
    getAssoc c2St1.fs.files c2Obj = some helloBytes ∧
    (c2St2.fs.log.filter (fun p => p == c2Obj)).length = 2 := by
  decide

/-- Claim C3 counterexample: a version string that is neither a baseline
name nor an existing commit id is claimed to fail with `CommitNotFound`;
on an initialized empty repository, `checkout "deadbeef"` instead
reports success and changes nothing. -/
theorem checkout_unknown_version_succeeds :
    Sbac.checkout c3St "deadbeef" = (.ok, c3St) := by
  decide

/-- Claim C4 counterexample: `commit` with no staged file is claimed to
fail with `NothingStaged` and create no commit row; the code commits
unconditionally, creating an empty commit. -/
theorem commit_nothing_staged_succeeds :
    (Sbac.commit c4St "m" "t1" "t2").1 = .ok ∧
    (Sbac.commit c4St "m" "t1" "t2").2.db.commits.length = 1 ∧
    (Sbac.commit c4St "m" "t1" "t2").2.db.commit_files = [] := by
  decide

/-- Claim C6 counterexample: each path is claimed to appear in at most one
of the three `status` sets; after `add a.txt` ("hello") and an external
edit of `a.txt` to "bye", the path is reported both as staged and as
modified (the modified query does not exclude staged rows). -/
theorem status_staged_and_modified_overlap :
    ["a.txt"] ∈ (Sbac.statusLists c6St2).1 ∧
    ["a.txt"] ∈ (Sbac.statusLists c6St2).2.1 := by
  decide

/-- Claim C8: an explicit tracked path whose on-disk content differs from
`last_hash` is claimed to produce an edit script without abnormal
termination, and an explicit untracked path to fail with `UntrackedFile`.
The untracked half holds, but the tracked half crashes: `difflib` is
never imported, so reaching `difflib.unified_diff` raises `NameError`. -/
theorem diff_crashes_with_nameerror :
    Sbac.diff c8St (some ["a.txt"]) = (.crash .nameErrorDiff, c8St) ∧
    Sbac.diff c8St (some ["b.txt"]) = (.err .untrackedFile, c8St) := by
  decide

/-- Claim C2 (amended): equal byte sequences always yield the same digest
and the same object-store key, and re-adding content whose blob already
exists leaves the object store contents unchanged — but the physical
write is performed again unconditionally (it is not skipped), appending
one more entry for the object path to the write log. -/
theorem store_idempotent_on_existing_blob (st : RepoState) (src : AbsPath)
    (c c1 c2 : Content) (hc : c1 = c2)
    (hsrc : getAssoc st.fs.files src = some c)
    (hobj : getAssoc st.fs.files (objectPath st (calculateHash c)) = some c) :
    calculateHash c1 = calculateHash c2 ∧
    (storeObject st (calculateHash c) src).2 = none ∧
    (storeObject st (calculateHash c) src).1.fs.files = st.fs.files ∧
    (storeObject st (calculateHash c) src).1.fs.log =
      st.fs.log ++ [objectPath st (calculateHash c)] := by
  subst hc
  have hpath : sbacDir st ++ ["objects", (calculateHash c).take 2] ++
      [(calculateHash c).drop 2] = objectPath st (calculateHash c) := by
    simp [objectPath, sbacDir]
  refine ⟨rfl, ?_, ?_, ?_⟩ <;>
    simp [storeObject, fsMkdir, fsWrite, hsrc, hpath, setAssoc_self _ _ _ hobj]

/-- Witness for `store_idempotent_on_existing_blob` at the C2 state after
one `add`. -/
theorem store_idempotent_on_existing_blob_witness :
    calculateHash helloBytes = calculateHash helloBytes ∧
    (storeObject c2St1 (calculateHash helloBytes) ["w", "a.txt"]).2 = none ∧
    (storeObject c2St1 (calculateHash helloBytes) ["w", "a.txt"]).1.fs.files =
      c2St1.fs.files ∧
    (storeObject c2St1 (calculateHash helloBytes) ["w", "a.txt"]).1.fs.log =
      c2St1.fs.log ++ [objectPath c2St1 (calculateHash helloBytes)] :=
  store_idempotent_on_existing_blob c2St1 ["w", "a.txt"] helloBytes helloBytes
    helloBytes rfl (by decide) (by decide)

/-- Claim C3 (amended): on an initialized repository, `checkout` resolves
`version` first as a baseline name and falls back to treating it
literally as a commit id; when no baseline matches it restores the
`commit_files` rows of the literal id, and when that id has no rows —
in particular when it names no existing commit — it does not fail with
a commit-not-found report: it restores nothing and reports success. -/
theorem checkout_unresolved_is_noop_success (st : RepoState) (version : String)
    (hinit : st.initialized = true)
    (hnb : st.db.baselines.find? (fun b => b.1 == version) = none) :
    Sbac.checkout st version =
      Sbac.restoreFiles st
        (st.db.commit_files.filter (fun r => r.commit_id == version)) ∧
    (st.db.commit_files.filter (fun r => r.commit_id == version) = [] →
      Sbac.checkout st version = (.ok, st)) := by
  have h1 : Sbac.checkout st version =
      Sbac.restoreFiles st
        (st.db.commit_files.filter (fun r => r.commit_id == version)) := by
    simp [Sbac.checkout, hinit, hnb]
  exact ⟨h1, fun he => by rw [h1, he]; rfl⟩

/-- Witness for `checkout_unresolved_is_noop_success` on the empty
initialized repository. -/
theorem checkout_unresolved_is_noop_success_witness :
    Sbac.checkout c3St "deadbeef" =
      Sbac.restoreFiles c3St
        (c3St.db.commit_files.filter (fun r => r.commit_id == "deadbeef")) ∧
    (c3St.db.commit_files.filter (fun r => r.commit_id == "deadbeef") = [] →
      Sbac.checkout c3St "deadbeef" = (.ok, c3St)) :=
  checkout_unresolved_is_noop_success c3St "deadbeef" rfl (by decide)

/-- Claim C4 (amended): `commit` with zero staged files does not fail:
provided the generated id is fresh, it succeeds and creates an empty
commit — a new commits row whose parent is the current head, with no
`commit_files` entries and the `files` table untouched. -/
theorem commit_nothing_staged_creates_empty_commit (st : RepoState)
    (message nowA nowB : String)
    (hinit : st.initialized = true)
    (hns : st.db.files.filter (·.staged) = [])
    (hfresh : st.db.commits.any
      (fun c => c.id == sha1Hex (strBytes nowA)) = false) :
    Sbac.commit st message nowA nowB =
      (.ok, { st with db := { st.db with
        commits := st.db.commits ++ [⟨sha1Hex (strBytes nowA), message, nowB,
          (headCommit st.db.commits).map (·.id)⟩] } }) := by
  simp [Sbac.commit, hinit, hfresh, hns]

/-- Witness for `commit_nothing_staged_creates_empty_commit` on the empty
initialized repository. -/
theorem commit_nothing_staged_creates_empty_commit_witness :
    Sbac.commit c4St "m" "t1" "t2" =
      (.ok, { c4St with db := { c4St.db with
        commits := c4St.db.commits ++ [⟨sha1Hex (strBytes "t1"), "m", "t2",
          (headCommit c4St.db.commits).map (·.id)⟩] } }) :=
  commit_nothing_staged_creates_empty_commit c4St "m" "t1" "t2" rfl (by decide)
    (by decide)

/-! ## State-shape lemmas for the operations -/

/-- `status` never changes the state. -/
theorem status_self (st : RepoState) : (Sbac.status st).2 = st := by
  unfold Sbac.status
  split
  · rfl
  · split <;> rfl

/-- `history` never changes the state. -/
theorem history_self (st : RepoState) : (Sbac.history st).2 = st := by
  unfold Sbac.history
  split <;> rfl

/-- `list_baselines` never changes the state. -/
theorem list_baselines_self (st : RepoState) :
    (Sbac.list_baselines st).2 = st := by
  unfold Sbac.list_baselines
  split
  · rfl
  · split <;> rfl

/-- The all-files `diff` loop never changes the state. -/
theorem diffAll_self (st : RepoState) (l : List FileRow) :
    (Sbac.diffAll st l).2 = st := by
  induction l with
  | nil => rfl
  | cons r rest ih =>
    unfold Sbac.diffAll
    dsimp only
    split
    · split
      · rfl
      · exact ih
    · split
      · split <;> rfl
      · exact ih

/-- `diff` never changes the state. -/
theorem diff_self (st : RepoState) (fp : Option RelPath) :
    (Sbac.diff st fp).2 = st := by
  unfold Sbac.diff
  split
  · rfl
  · split
    · split
      · rfl
      · split
        · rfl
        · split
          · split <;> rfl
          · rfl
    · exact diffAll_self st _

/-- `add` touches neither the commits table nor the baselines table. -/
theorem add_baselines_commits (st : RepoState) (p : RelPath) (m : Nat) :
    ((Sbac.add st p m).2).db.baselines = st.db.baselines ∧
    ((Sbac.add st p m).2).db.commits = st.db.commits := by
  unfold Sbac.add
  dsimp only
  split
  · exact ⟨rfl, rfl⟩
  · split
    · split <;> exact ⟨rfl, rfl⟩
    · split
      · rw [storeObject_db]
        exact ⟨rfl, rfl⟩
      · rw [storeObject_db]
        exact ⟨rfl, rfl⟩

/-- `commit` leaves the baselines table unchanged and only ever appends
to the commits table. -/
theorem commit_baselines_commits (st : RepoState)
    (message nowA nowB : String) :
    ((Sbac.commit st message nowA nowB).2).db.baselines =
      st.db.baselines ∧
    ∀ c ∈ st.db.commits,
      c ∈ ((Sbac.commit st message nowA nowB).2).db.commits := by
  unfold Sbac.commit
  split
  · exact ⟨rfl, fun c hc => hc⟩
  · dsimp only
    split
    · exact ⟨rfl, fun c hc => hc⟩
    · exact ⟨rfl, fun c hc => List.mem_append_left _ hc⟩

/-- `init` touches neither the commits table nor the baselines table. -/
theorem init_baselines_commits (st : RepoState) (nowIso : String) :
    ((Sbac.init st nowIso).2).db.baselines = st.db.baselines ∧
    ((Sbac.init st nowIso).2).db.commits = st.db.commits := by
  unfold Sbac.init
  split
  · exact ⟨rfl, rfl⟩
  · split
    · exact ⟨rfl, rfl⟩
    · exact ⟨rfl, rfl⟩

/-- `checkout` never changes the database. -/
theorem checkout_db (st : RepoState) (version : String) :
    ((Sbac.checkout st version).2).db = st.db := by
  unfold Sbac.checkout
  split
  · rfl
  · dsimp only
    exact restoreFiles_db _ _

/-- `baseline` preserves the baselines referential invariant: on success
it stores the head commit's id, which is a row of the commits table. -/
theorem baseline_preserves_inv (st : RepoState) (name : String)
    (h : baselineInv st.db) : baselineInv ((Sbac.baseline st name).2).db := by
  unfold Sbac.baseline
  split
  · exact h
  · split
    · exact h
    · rename_i c hc
      intro b hb
      rcases mem_upsertBaseline _ _ _ hb with hx | hx
      · exact ⟨c, headCommit_mem _ _ hc, by rw [hx]⟩
      · exact h b hx

/-- Mapping a function that fixes every element the filter keeps commutes
with the filter. -/
theorem filter_map_invariant {α : Type} (p : α → Bool) (g : α → α)
    (hpg : ∀ x, p (g x) = p x) (hid : ∀ x, p x = true → g x = x)
    (l : List α) : (l.map g).filter p = l.filter p := by
  induction l with
  | nil => rfl
  | cons a t ih =>
    rw [List.map_cons, List.filter_cons, List.filter_cons, hpg]
    by_cases hp : p a = true
    · rw [if_pos hp, if_pos hp, hid a hp, ih]
    · rw [if_neg hp, if_neg hp, ih]

/-- Filtering the freshly recorded `commit_files` rows by their own commit
id keeps them all. -/
theorem filter_beq_map_self (cid : String) (S : List FileRow) :
    ((S.map (fun r => (⟨cid, r.path, r.last_hash⟩ : CommitFileRow))).filter
        (fun e => e.commit_id == cid)) =
      S.map (fun r => (⟨cid, r.path, r.last_hash⟩ : CommitFileRow)) := by
  induction S with
  | nil => rfl
  | cons a t ih => simp [ih]

/-- An initialized repository with two tracked files, `a.txt` staged and
`b.txt` not staged; no commits yet.  Used for claim C5. -/
def c5St0 : RepoState :=
  { cwd := ["w"], repo_path := ["w"], initialized := true,
    db := { DB.empty with files :=
      [⟨["a.txt"], "h1", 1, true⟩, ⟨["b.txt"], "h2", 2, false⟩] },
    fs := { files := [],
            dirs := [["w", ".sbac"], ["w", ".sbac", "objects"]],
            log := [] } }

/-- The C5 repository after `commit "m"`. -/
def c5St1 : RepoState := (Sbac.commit c5St0 "m" "t1" "t2").2

/-- Claim C5: when `commit` succeeds with a fresh id, the entries recorded
for the new commit are exactly the staged rows' `(path, last_hash)` pairs
(a full snapshot of the staged set), every `files` row whose path is in
that snapshot ends up unstaged, and the `files` rows whose paths are not
in the snapshot are unchanged. -/
theorem commit_snapshot_clears_staged (st : RepoState)
    (message nowA nowB : String) (st' : RepoState)
    (hok : Sbac.commit st message nowA nowB = (.ok, st'))
    (hfresh : st.db.commit_files.filter
      (fun e => e.commit_id == sha1Hex (strBytes nowA)) = []) :
    entriesOf st'.db (sha1Hex (strBytes nowA)) =
      (st.db.files.filter (·.staged)).map (fun r => (r.path, r.last_hash)) ∧
    st'.db.files.all (fun r =>
      !(st.db.files.filter (·.staged)).any (fun s => s.path == r.path) ||
        !r.staged) = true ∧
    st'.db.files.filter (fun r =>
        !(st.db.files.filter (·.staged)).any (fun s => s.path == r.path)) =
      st.db.files.filter (fun r =>
        !(st.db.files.filter (·.staged)).any (fun s => s.path == r.path)) := by
  unfold Sbac.commit at hok
  by_cases hinit : st.initialized = true
  case neg =>
    rw [Bool.not_eq_true] at hinit
    rw [hinit] at hok
    simp at hok
  case pos =>
    simp only [hinit, Bool.not_true, Bool.false_eq_true, if_false] at hok
    split at hok
    · simp at hok
    · simp only [Prod.mk.injEq, true_and] at hok
      subst hok
      refine ⟨?_, ?_, ?_⟩
      · simp only [entriesOf, List.filter_append, hfresh, List.nil_append,
          filter_beq_map_self, List.map_map]
        rfl
      · rw [List.all_eq_true]
        intro r hr
        rw [List.mem_map] at hr
        obtain ⟨x, hx, rfl⟩ := hr
        by_cases hany : (st.db.files.filter (·.staged)).any
            (fun s => s.path == x.path) = true
        · simp [hany]
        · simp only [Bool.not_eq_true] at hany
          simp [hany]
      · refine filter_map_invariant _ _ (fun x => ?_) (fun x hx => ?_)
          st.db.files
        · by_cases hc : (st.db.files.filter (·.staged)).any
              (fun s => s.path == x.path) = true
          · rw [if_pos hc]
          · rw [if_neg hc]
        · rw [Bool.not_eq_true'] at hx
          exact if_neg (by simp [hx])

/-- Witness for `commit_snapshot_clears_staged` on the two-file C5
repository. -/
theorem commit_snapshot_clears_staged_witness :
    entriesOf c5St1.db (sha1Hex (strBytes "t1")) =
      (c5St0.db.files.filter (·.staged)).map
        (fun r => (r.path, r.last_hash)) ∧
    c5St1.db.files.all (fun r =>
      !(c5St0.db.files.filter (·.staged)).any (fun s => s.path == r.path) ||
        !r.staged) = true ∧
    c5St1.db.files.filter (fun r =>
        !(c5St0.db.files.filter (·.staged)).any
          (fun s => s.path == r.path)) =
      c5St0.db.files.filter (fun r =>
        !(c5St0.db.files.filter (·.staged)).any
          (fun s => s.path == r.path)) :=
  commit_snapshot_clears_staged c5St0 "m" "t1" "t2" c5St1 (by decide)
    (by decide)

/-- Claim C6 (amended): the untracked set computed by `status` is disjoint
from both the staged set and the modified set, but the staged and
modified sets may overlap — any staged row whose on-disk content hashes
differently from its `last_hash` is reported in both. -/
theorem status_untracked_disjoint_staged_modified_overlap (st : RepoState)
    (p : RelPath) (row : FileRow) (c : Content)
    (hp : p ∈ (Sbac.statusLists st).2.2)
    (hrow : row ∈ st.db.files) (hst : row.staged = true)
    (hdisk : getAssoc st.fs.files (st.repo_path ++ row.path) = some c)
    (hdiff : calculateHash c ≠ row.last_hash) :
    p ∉ (Sbac.statusLists st).1 ∧ p ∉ (Sbac.statusLists st).2.1 ∧
    row.path ∈ (Sbac.statusLists st).1 ∧
    row.path ∈ (Sbac.statusLists st).2.1 := by
  have htr : p ∉ st.db.files.map (·.path) := by
    simp only [Sbac.statusLists, findUntrackedFiles] at hp
    rw [List.mem_filterMap] at hp
    obtain ⟨kv, hkv, hf⟩ := hp
    rcases hrel : relUnder st.repo_path kv.1 with _ | rel
    · rw [hrel] at hf
      simp at hf
    · rw [hrel] at hf
      dsimp only at hf
      split at hf
      · rename_i hcond
        injection hf with hf
        subst hf
        exact hcond.2.2
      · simp at hf
  refine ⟨?_, ?_, ?_, ?_⟩
  · intro hmem
    apply htr
    simp only [Sbac.statusLists] at hmem
    rw [List.mem_map] at hmem
    obtain ⟨r, hr, rfl⟩ := hmem
    exact List.mem_map_of_mem _ (List.mem_of_mem_filter hr)
  · intro hmem
    apply htr
    simp only [Sbac.statusLists] at hmem
    rw [List.mem_map] at hmem
    obtain ⟨r, hr, rfl⟩ := hmem
    exact List.mem_map_of_mem _ (List.mem_of_mem_filter hr)
  · simp only [Sbac.statusLists]
    exact List.mem_map_of_mem _ (List.mem_filter.mpr ⟨hrow, hst⟩)
  · simp only [Sbac.statusLists]
    refine List.mem_map_of_mem _ (List.mem_filter.mpr ⟨hrow, ?_⟩)
    rw [hdisk]
    simpa using hdiff

/-- Witness for `status_untracked_disjoint_staged_modified_overlap` on the
C6 repository (untracked `u.txt`, staged-and-edited `a.txt`). -/
theorem status_untracked_disjoint_witness :
    ["u.txt"] ∉ (Sbac.statusLists c6St2).1 ∧
    ["u.txt"] ∉ (Sbac.statusLists c6St2).2.1 ∧
    ["a.txt"] ∈ (Sbac.statusLists c6St2).1 ∧
    ["a.txt"] ∈ (Sbac.statusLists c6St2).2.1 :=
  status_untracked_disjoint_staged_modified_overlap c6St2 ["u.txt"]
    ⟨["a.txt"], calculateHash helloBytes, 1, true⟩ byeBytes (by decide)
    (by decide) rfl (by decide) (by decide)

/-- An uninitialized repository at `/w`: no metadata directory, empty
database.  Used for claim C7. -/
def c7StUn : RepoState :=
  { cwd := ["w"], repo_path := ["w"], initialized := false,
    db := DB.empty, fs := { files := [], dirs := [], log := [] } }

/-- An initialized repository at `/w` with its metadata directory present.
Used for claim C7. -/
def c7StIn : RepoState :=
  { cwd := ["w"], repo_path := ["w"], initialized := true,
    db := DB.empty,
    fs := { files := [],
            dirs := [["w", ".sbac"], ["w", ".sbac", "objects"]],
            log := [] } }

/-- Claim C7: on an uninitialized repository every operation other than
`init` reports the not-initialized error and leaves the state unchanged;
`init` on an initialized repository reports the already-initialized
error; `init` on an uninitialized repository (metadata directory absent,
as the constructor guarantees) succeeds, creating the metadata directory,
the object directory and the schema, and recording the creation
timestamp. -/
theorem uninitialized_gate_and_init (st : RepoState) (p : RelPath) (m : Nat)
    (message nowA nowB nowIso name version : String) (fp : Option RelPath) :
    (st.initialized = false →
      Sbac.add st p m = (.err .notInitialized, st) ∧
      Sbac.status st = (.err .notInitialized, st) ∧
      Sbac.diff st fp = (.err .notInitialized, st) ∧
      Sbac.commit st message nowA nowB = (.err .notInitialized, st) ∧
      Sbac.history st = (.err .notInitialized, st) ∧
      Sbac.baseline st name = (.err .notInitialized, st) ∧
      Sbac.list_baselines st = (.err .notInitialized, st) ∧
      Sbac.checkout st version = (.err .notInitialized, st)) ∧
    (st.initialized = true →
      Sbac.init st nowIso = (.err .alreadyInitialized, st)) ∧
    (st.initialized = false → st.fs.dirs.contains (sbacDir st) = false →
      (Sbac.init st nowIso).1 = .ok ∧
      (Sbac.init st nowIso).2.initialized = true ∧
      sbacDir st ∈ (Sbac.init st nowIso).2.fs.dirs ∧
      sbacDir st ++ ["objects"] ∈ (Sbac.init st nowIso).2.fs.dirs ∧
      ("created_at", nowIso) ∈ (Sbac.init st nowIso).2.db.config) := by
  refine ⟨fun hni => ?_, fun hi => ?_, fun hni hnd => ?_⟩
  · exact ⟨by simp [Sbac.add, hni], by simp [Sbac.status, hni],
      by simp [Sbac.diff, hni], by simp [Sbac.commit, hni],
      by simp [Sbac.history, hni], by simp [Sbac.baseline, hni],
      by simp [Sbac.list_baselines, hni], by simp [Sbac.checkout, hni]⟩
  · simp [Sbac.init, hi]
  · have hnd' : sbacDir st ∉ st.fs.dirs := by simpa using hnd
    have hfs : Sbac.init st nowIso = (.ok,
        { st with
          fs := fsMkdir (fsMkdir st.fs (sbacDir st)) (sbacDir st ++ ["objects"]),
          db := { st.db with
            config := st.db.config ++ [("created_at", nowIso)] },
          initialized := true }) := by
      simp [Sbac.init, hni, hnd']
    rw [hfs]
    refine ⟨rfl, rfl, ?_, ?_, ?_⟩
    · simp only [fsMkdir, hnd, Bool.false_eq_true, if_false]
      split <;> simp
    · simp only [fsMkdir, hnd, Bool.false_eq_true, if_false]
      split
      · rename_i hcontains
        exact List.elem_iff.mp hcontains
      · simp
    · simp

/-- Witness for `uninitialized_gate_and_init` at the concrete
uninitialized and initialized repositories. -/
theorem uninitialized_gate_and_init_witness :
    Sbac.add c7StUn ["a.txt"] 0 = (.err .notInitialized, c7StUn) ∧
    Sbac.checkout c7StUn "v1" = (.err .notInitialized, c7StUn) ∧
    Sbac.init c7StIn "ts" = (.err .alreadyInitialized, c7StIn) ∧
    (Sbac.init c7StUn "ts").1 = .ok ∧
    ("created_at", "ts") ∈ (Sbac.init c7StUn "ts").2.db.config := by
  refine ⟨?_, ?_, ?_, ?_, ?_⟩
  · exact ((uninitialized_gate_and_init c7StUn ["a.txt"] 0 "m" "a" "b" "ts"
      "n" "v1" none).1 rfl).1
  · exact ((uninitialized_gate_and_init c7StUn ["a.txt"] 0 "m" "a" "b" "ts"
      "n" "v1" none).1 rfl).2.2.2.2.2.2.2
  · exact (uninitialized_gate_and_init c7StIn ["a.txt"] 0 "m" "a" "b" "ts"
      "n" "v1" none).2.1 rfl
  · exact ((uninitialized_gate_and_init c7StUn ["a.txt"] 0 "m" "a" "b" "ts"
      "n" "v1" none).2.2 rfl (by decide)).1
  · exact ((uninitialized_gate_and_init c7StUn ["a.txt"] 0 "m" "a" "b" "ts"
      "n" "v1" none).2.2 rfl (by decide)).2.2.2.2

/-- An initialized repository with one prior commit.  Used for claim C9. -/
def c9St0 : RepoState :=
  { cwd := ["w"], repo_path := ["w"], initialized := true,
    db := { DB.empty with commits := [⟨"cid0", "first", "t0", none⟩] },
    fs := { files := [],
            dirs := [["w", ".sbac"], ["w", ".sbac", "objects"]],
            log := [] } }

/-- The C9 repository after a further `commit`. -/
def c9St1 : RepoState := (Sbac.commit c9St0 "m" "t1" "t2").2

/-- Claim C9: whenever `commit` succeeds, the id it assigns is distinct
from the id of every previously created commit, and the commits table
keeps pairwise-distinct ids — the `commits` primary key rejects a
duplicate id (same clock reading), in which case no commit is created,
so every successful commit's id is fresh. -/
theorem commit_ids_unique (st : RepoState) (message nowA nowB : String)
    (st' : RepoState)
    (hok : Sbac.commit st message nowA nowB = (.ok, st'))
    (hnd : (st.db.commits.map (·.id)).Nodup) :
    st'.db.commits.map (·.id) =
      st.db.commits.map (·.id) ++ [sha1Hex (strBytes nowA)] ∧
    sha1Hex (strBytes nowA) ∉ st.db.commits.map (·.id) ∧
    (st'.db.commits.map (·.id)).Nodup := by
  unfold Sbac.commit at hok
  by_cases hinit : st.initialized = true
  case neg =>
    rw [Bool.not_eq_true] at hinit
    rw [hinit] at hok
    simp at hok
  case pos =>
    simp only [hinit, Bool.not_true, Bool.false_eq_true, if_false] at hok
    split at hok
    · simp at hok
    · rename_i hfresh
      simp only [Prod.mk.injEq, true_and] at hok
      subst hok
      have hnotmem : sha1Hex (strBytes nowA) ∉ st.db.commits.map (·.id) := by
        intro hmem
        rw [List.mem_map] at hmem
        obtain ⟨c, hc, hcid⟩ := hmem
        exact hfresh (List.any_eq_true.mpr ⟨c, hc, by simp [hcid]⟩)
      refine ⟨by simp, hnotmem, ?_⟩
      simp only [List.map_append, List.map_cons, List.map_nil]
      rw [List.nodup_append]
      exact ⟨hnd, List.nodup_singleton _,
        fun a ha hb => by simp at hb; exact hnotmem (hb ▸ ha)⟩

/-- Witness for `commit_ids_unique` on the one-commit C9 repository. -/
theorem commit_ids_unique_witness :
    c9St1.db.commits.map (·.id) =
      c9St0.db.commits.map (·.id) ++ [sha1Hex (strBytes "t1")] ∧
    sha1Hex (strBytes "t1") ∉ c9St0.db.commits.map (·.id) ∧
    (c9St1.db.commits.map (·.id)).Nodup :=
  commit_ids_unique c9St0 "m" "t1" "t2" c9St1 (by decide) (by decide)

/-- An initialized repository with one commit and one baseline pointing at
it.  Used for claim C10. -/
def c10St : RepoState :=
  { cwd := ["w"], repo_path := ["w"], initialized := true,
    db := { DB.empty with
      commits := [⟨"cid1", "m1", "t0", none⟩],
      baselines := [("v1", "cid1")] },
    fs := { files := [],
            dirs := [["w", ".sbac"], ["w", ".sbac", "objects"]],
            log := [] } }

/-- Claim C10: the baselines referential invariant — every baselines row
names an existing commits row — is preserved by every operation
(`baseline` only ever stores the current head's id, which is a commits
row, and nothing deletes commits), and under it `list_baselines`
dereferences every baseline's commit without failing. -/
theorem baseline_referential_invariant (st : RepoState) (p : RelPath)
    (m : Nat) (message nowA nowB nowIso name version : String)
    (fp : Option RelPath) (hinv : baselineInv st.db) :
    baselineInv ((Sbac.init st nowIso).2).db ∧
    baselineInv ((Sbac.add st p m).2).db ∧
    baselineInv ((Sbac.status st).2).db ∧
    baselineInv ((Sbac.diff st fp).2).db ∧
    baselineInv ((Sbac.commit st message nowA nowB).2).db ∧
    baselineInv ((Sbac.history st).2).db ∧
    baselineInv ((Sbac.baseline st name).2).db ∧
    baselineInv ((Sbac.list_baselines st).2).db ∧
    baselineInv ((Sbac.checkout st version).2).db ∧
    (st.initialized = true → Sbac.list_baselines st = (.ok, st)) := by
  refine ⟨?_, ?_, ?_, ?_, ?_, ?_, ?_, ?_, ?_, ?_⟩
  · exact baselineInv_extend _ _ (init_baselines_commits st nowIso).1
      (fun x hx => (init_baselines_commits st nowIso).2 ▸ hx) hinv
  · exact baselineInv_extend _ _ (add_baselines_commits st p m).1
      (fun x hx => (add_baselines_commits st p m).2 ▸ hx) hinv
  · rw [status_self]
    exact hinv
  · rw [diff_self]
    exact hinv
  · exact baselineInv_extend _ _ (commit_baselines_commits st message nowA
      nowB).1 (commit_baselines_commits st message nowA nowB).2 hinv
  · rw [history_self]
    exact hinv
  · exact baseline_preserves_inv st name hinv
  · rw [list_baselines_self]
    exact hinv
  · rw [checkout_db]
    exact hinv
  · intro hinit
    have hany : (st.db.baselines.any (fun b =>
        st.db.commits.find? (fun c => c.id == b.2) = none)) = false := by
      rw [List.any_eq_false]
      intro b hb
      obtain ⟨c, hc1, hc2⟩ := hinv b hb
      simp only [decide_eq_true_eq]
      intro hnone
      have hsome : (st.db.commits.find? (fun c => c.id == b.2)).isSome := by
        rw [List.find?_isSome]
        exact ⟨c, hc1, by simp [hc2]⟩
      rw [hnone] at hsome
      simp at hsome
    simp only [Sbac.list_baselines, hinit, Bool.not_true, Bool.false_eq_true,
      if_false, hany]

/-- Witness for `baseline_referential_invariant` on the one-baseline C10
repository. -/
theorem baseline_referential_invariant_witness :
    baselineInv ((Sbac.init c10St "iso").2).db ∧
    baselineInv ((Sbac.add c10St ["a.txt"] 0).2).db ∧
    baselineInv ((Sbac.status c10St).2).db ∧
    baselineInv ((Sbac.diff c10St none).2).db ∧
    baselineInv ((Sbac.commit c10St "m" "t1" "t2").2).db ∧
    baselineInv ((Sbac.history c10St).2).db ∧
    baselineInv ((Sbac.baseline c10St "v2").2).db ∧
    baselineInv ((Sbac.list_baselines c10St).2).db ∧
    baselineInv ((Sbac.checkout c10St "v1").2).db ∧
    (c10St.initialized = true → Sbac.list_baselines c10St = (.ok, c10St)) :=
  baseline_referential_invariant c10St ["a.txt"] 0 "m" "t1" "t2" "iso" "v2"
    "v1" none (by decide)

end MiniGit
